import Mathlib

/-!
Verification of the markdown rendering pipeline configured by this repository
(eleventy configuration snippets wiring markdown-it extensions: footnotes,
table of contents, and shiki syntax highlighting).

Definitions embed the configuration code under `src/`.  Third-party plugin
behaviour that the configuration relies on but which is not part of the
repository (markdown-it base rendering, the footnote and table-of-contents
plugins) is modelled from the spec, marked in doc comments.
-/

namespace Blog

/-- HTML escaping of one character (ampersand, angle brackets, double
quote), as applied by the base markdown renderer to code-block contents. -/
def escapeChar (c : Char) : String :=
  if c = '&' then "&amp;"
  else if c = '<' then "&lt;"
  else if c = '>' then "&gt;"
  else if c = '"' then "&quot;"
  else String.singleton c

/-- HTML escaping applied by the base markdown renderer to code-block
contents. -/
def escapeHtml (s : String) : String :=
  String.join (s.data.map escapeChar)

/-- Removal of leading and trailing whitespace, as JS `String.prototype.trim`
does (the `code.trim()` call of the highlight option). -/
def strTrim (s : String) : String :=
  String.mk (((s.data.dropWhile Char.isWhitespace).reverse.dropWhile Char.isWhitespace).reverse)

/-- A block-level element of a markdown document, at the granularity the
pipeline's extensions act on: plain paragraphs, headings, fenced code blocks
with a language tag, footnote definitions, and the table-of-contents
placeholder token. -/
inductive Block where
  | para (text : String)
  | heading (level : Nat) (text : String)
  | fence (lang : String) (code : String)
  | footnoteDef (label : String) (text : String)
  | tocToken
deriving DecidableEq, Repr

/-- A document is a sequence of blocks. -/
abbrev Doc := List Block

/-- Modelled from the spec: the base markdown-to-HTML conversion with no
extensions registered.  Fenced code blocks are emitted as escaped
preformatted text (with a language class when a tag is present), and the
footnote / table-of-contents syntaxes are left as plain paragraphs since no
plugin recognises them. -/
def renderBlockBase : Block → String
  | .para t => "<p>" ++ t ++ "</p>\n"
  | .heading n t => "<h" ++ toString n ++ ">" ++ t ++ "</h" ++ toString n ++ ">\n"
  | .fence l c =>
      if l = "" then "<pre><code>" ++ escapeHtml c ++ "</code></pre>\n"
      else "<pre><code class=\"language-" ++ l ++ "\">" ++ escapeHtml c ++ "</code></pre>\n"
  | .footnoteDef l t => "<p>[^" ++ l ++ "]: " ++ t ++ "</p>\n"
  | .tocToken => "<p>[[toc]]</p>\n"

/-- The base conversion of a whole document. -/
def renderDocBase (doc : Doc) : String :=
  String.join (doc.map renderBlockBase)

/-- Options of the table-of-contents extension. -/
structure TocOptions where
  listType : String
  includeLevel : List Nat
deriving Repr

/-- The table-of-contents options registered in the configuration:
`listType: "ol", includeLevel: [1,2,3,4]` (from `src/unnamed/part_000`). -/
def tocOptions : TocOptions :=
  { listType := "ol", includeLevel := [1, 2, 3, 4] }

/-- The headings of a document, in document order, as (level, text) pairs. -/
def headingsOf (doc : Doc) : List (Nat × String) :=
  doc.filterMap fun b =>
    match b with
    | .heading n t => some (n, t)
    | _ => none

/-- Modelled from the spec: the table-of-contents extension keeps exactly
the headings whose level lies in the configured `includeLevel` list, in
document order. -/
def tocEntries (opts : TocOptions) (doc : Doc) : List (Nat × String) :=
  (headingsOf doc).filter fun h => opts.includeLevel.contains h.1

/-- Modelled from the spec: one table-of-contents entry is a list item
linking to its heading. -/
def tocEntryHtml (h : Nat × String) : String :=
  "<li><a href=\"#" ++ h.2 ++ "\">" ++ h.2 ++ "</a></li>"

/-- Modelled from the spec: the list emitted at the placeholder token, whose
tag is the configured list style. -/
def tocHtml (opts : TocOptions) (doc : Doc) : String :=
  "<" ++ opts.listType ++ ">"
    ++ String.join ((tocEntries opts doc).map tocEntryHtml)
    ++ "</" ++ opts.listType ++ ">"

/-- Modelled from the spec: the footnote extension rewrites a footnote
definition into a linked footnote item. -/
def footnoteDefHtml (l t : String) : String :=
  "<li id=\"fn" ++ l ++ "\"><p>" ++ t ++ "</p></li>"

/-- The mutable pipeline state the shiki configuration file installs:
before the `eleventy.before` hook has run, no `highlight` option is set on
the markdown library (`highlightFn = none`); the hook sets it
(`highlightFn = some f`). From `src/eleventy.config.markdownit.js`. -/
structure PipelineState where
  highlightFn : Option (String → String → String)

/-- The pipeline state before the asynchronous initialization hook has run:
only the empty `amendLibrary` call (an empty function) has executed, so no
highlight function is installed. -/
def stUninit : PipelineState := { highlightFn := none }

/-- Rendering of one block by the extended pipeline (footnote and
table-of-contents plugins registered per `src/unnamed/part_000`, highlight
option per `src/eleventy.config.markdownit.js`).  The whole document is
passed so the table-of-contents token can see the heading structure. -/
def renderBlockExt (st : PipelineState) (doc : Doc) : Block → String
  | .para t => "<p>" ++ t ++ "</p>\n"
  | .heading n t => "<h" ++ toString n ++ ">" ++ t ++ "</h" ++ toString n ++ ">\n"
  | .fence l c =>
      match st.highlightFn with
      | some f => f c l
      | none =>
          if l = "" then "<pre><code>" ++ escapeHtml c ++ "</code></pre>\n"
          else "<pre><code class=\"language-" ++ l ++ "\">" ++ escapeHtml c ++ "</code></pre>\n"
  | .footnoteDef l t => footnoteDefHtml l t ++ "\n"
  | .tocToken => tocHtml tocOptions doc ++ "\n"

/-- The list of rendered blocks of a document under the extended pipeline. -/
def renderedBlocks (st : PipelineState) (doc : Doc) : List String :=
  doc.map (renderBlockExt st doc)

/-- The extended pipeline's render operation: a function of the pipeline
state and the input document only. -/
def renderDoc (st : PipelineState) (doc : Doc) : String :=
  String.join (renderedBlocks st doc)

/-- The render call as observed by the caller.  The configuration installs
no guard before the initialization hook (the pre-hook `amendLibrary` call is
an empty function), so a render call never raises in the embedded
configuration: it returns the rendered string unconditionally. -/
def renderCall (st : PipelineState) (doc : Doc) : Except String String :=
  .ok (renderDoc st doc)

/-- State-passing view of a render call: the source render path only reads
the captured configuration, so the state component is returned unchanged. -/
def renderSt (st : PipelineState) (doc : Doc) : String × PipelineState :=
  (renderDoc st doc, st)

/-- The highlighting theme configured in `src/eleventy.config.markdownit.js`:
`const theme = 'rose-pine-dawn'`. -/
def theme : String := "rose-pine-dawn"

/-- One entry of the highlighter's language set: either a built-in language
named by a string, or a custom grammar supplied as structured grammar data
(the JSON-parsed contents of `typespec.json`). -/
inductive LangSpec where
  | builtin (name : String)
  | custom (grammar : String)
deriving DecidableEq, Repr

/-- Whether a language entry is a custom (non-built-in) grammar. -/
def LangSpec.isCustom : LangSpec → Bool
  | .custom _ => true
  | .builtin _ => false

/-- The `langs` array of `src/eleventy.config.markdownit.js`:
`["typescript", JSON.parse(readFileSync("./typespec.json")), "yaml"]`,
parameterized by the parsed grammar data. -/
def langsList (typespecGrammar : String) : List LangSpec :=
  [.builtin "typescript", .custom typespecGrammar, .builtin "yaml"]

/-- The argument object passed to `shiki.getHighlighter`. -/
structure HighlighterConfig where
  themes : List String
  langs : List LangSpec
deriving DecidableEq, Repr

/-- The highlighter construction request from the source: `getHighlighter`
is called with the object whose `themes` field is the one-element list of
the configured theme and whose `langs` field is the `langs` array. -/
def highlighterConfig (g : String) : HighlighterConfig :=
  { themes := [theme], langs := langsList g }

/-- A constructed highlighter: the configuration it was built with, plus its
tokenizer (abstract, supplied by the external shiki library): arguments are
code, language, theme. -/
structure Highlighter where
  config : HighlighterConfig
  codeToHtml : String → String → String → String

/-- The module-load grammar read of the source, `JSON.parse` included:
`JSON.parse(require("fs").readFileSync("./typespec.json"))`.  The file read
and the JSON parser are external, so they are parameters; the source wraps
neither in any error handling, so failures propagate. -/
def loadGrammar (readTypespec : Except String String)
    (jsonParse : String → Except String String) : Except String String := do
  let raw ← readTypespec
  jsonParse raw

/-- The initialization phase of `src/eleventy.config.markdownit.js` (the
grammar read at module load plus the `eleventy.before` hook): load and
parse the grammar, then construct the highlighter with the configured theme
and language set.  No step is wrapped in error handling, so any failure
propagates out of the phase. -/
def init (readTypespec : Except String String)
    (jsonParse : String → Except String String)
    (getHighlighter : HighlighterConfig → Except String Highlighter) :
    Except String Highlighter := do
  let g ← loadGrammar readTypespec jsonParse
  getHighlighter (highlighterConfig g)

/-- The highlight option installed by the `eleventy.before` hook: it calls
`highlighter.codeToHtml` on `code.trim()` with the given language and the
configured theme. -/
def highlight (hl : Highlighter) (code lang : String) : String :=
  hl.codeToHtml (strTrim code) lang theme

/-- The pipeline state after the initialization hook has installed the
highlight option built from a constructed highlighter. -/
def stReady (hl : Highlighter) : PipelineState :=
  { highlightFn := some (highlight hl) }

/-- The order in which the two markdown-it plugins are registered inside the
`amendLibrary` callback of `src/unnamed/part_000`: footnote first, then
table of contents. -/
inductive Extension where
  | footnote
  | toc
deriving DecidableEq, Repr

/-- The registration list, exactly as the source registers the plugins. -/
def registrationList : List Extension := [.footnote, .toc]

/-- Whether a block uses the syntax of any registered extension: fenced
code, footnote definitions, or the table-of-contents placeholder. -/
def usesExtSyntax : Block → Bool
  | .para _ => false
  | .heading _ _ => false
  | .fence _ _ => true
  | .footnoteDef _ _ => true
  | .tocToken => true

/-- A concrete document used to evaluate the table-of-contents extension. -/
def demoTocDoc : Doc :=
  [Block.tocToken, Block.heading 1 "Intro", Block.heading 2 "Detail",
   Block.heading 5 "Deep", Block.para "body"]

/-- A concrete document holding one fenced code block. -/
def demoFenceDoc : Doc := [Block.fence "typescript" "let x = 1;"]

/-- A concrete document using no extension syntax. -/
def demoPlainDoc : Doc := [Block.para "hello", Block.heading 2 "title"]

end Blog

namespace Blog

/-- C3: with the configured options (`listType = "ol"`,
`includeLevel = [1,2,3,4]`), the table-of-contents list style is ordered;
the entries are exactly the document's headings whose level lies in the
inclusive range 1..4, in document order; every entry's level is in that
range; and whenever the placeholder token occurs in the document, the
rendered output contains the emitted list. -/
theorem toc_renders_filtered_headings :
    tocOptions.listType = "ol"
    ∧ (∀ doc : Doc,
        tocEntries tocOptions doc
          = (headingsOf doc).filter (fun h => 1 ≤ h.1 && h.1 ≤ 4))
    ∧ (∀ (doc : Doc) (h : Nat × String),
        h ∈ tocEntries tocOptions doc → 1 ≤ h.1 ∧ h.1 ≤ 4)
    ∧ (∀ (st : PipelineState) (doc : Doc), Block.tocToken ∈ doc →
        (tocHtml tocOptions doc ++ "\n") ∈ renderedBlocks st doc) := by
  refine ⟨rfl, ?_, ?_, ?_⟩
  · intro doc
    apply List.filter_congr
    intro h _
    show tocOptions.includeLevel.contains h.1 = _
    rcases h with ⟨n, t⟩
    show ([1, 2, 3, 4] : List Nat).contains n = _
    rw [Bool.eq_iff_iff]
    simp only [List.contains_cons, List.contains_nil, Bool.or_false, Bool.or_eq_true,
      beq_iff_eq, Bool.and_eq_true, decide_eq_true_eq]
    omega
  · intro doc h hmem
    rw [tocEntries] at hmem
    have := List.of_mem_filter hmem
    simp only [tocOptions, List.contains_cons, List.contains_nil,
      Bool.or_false, Bool.or_eq_true, beq_iff_eq] at this
    omega
  · intro st doc hmem
    exact List.mem_map.mpr ⟨Block.tocToken, hmem, rfl⟩

/-- Witness for C3 at a concrete document containing the placeholder and
headings at levels 1, 2, and 5. -/
theorem toc_renders_filtered_headings_witness :
    Block.tocToken ∈ demoTocDoc
    ∧ (tocHtml tocOptions demoTocDoc ++ "\n") ∈ renderedBlocks stUninit demoTocDoc :=
  ⟨by decide, toc_renders_filtered_headings.2.2.2 stUninit demoTocDoc (by decide)⟩

/-- C5: the registration list of `src/unnamed/part_000` is exactly
footnote followed by table of contents, so the footnote plugin is
registered strictly before the table-of-contents plugin. -/
theorem footnote_registered_before_toc :
    registrationList = [Extension.footnote, Extension.toc]
    ∧ registrationList.indexOf Extension.footnote < registrationList.indexOf Extension.toc := by
  exact ⟨rfl, by decide⟩

/-- C8: on a document using no extension syntax (no footnote definition, no
table-of-contents token, no fenced code block), the extended pipeline
renders exactly as the base markdown-to-HTML conversion, in any pipeline
state. -/
theorem ext_noop_without_syntax (st : PipelineState) (doc : Doc)
    (h : ∀ b ∈ doc, usesExtSyntax b = false) :
    renderDoc st doc = renderDocBase doc := by
  unfold renderDoc renderedBlocks renderDocBase
  congr 1
  apply List.map_congr_left
  intro b hb
  have hb' := h b hb
  cases b with
  | para t => rfl
  | heading n t => rfl
  | fence l c => simp [usesExtSyntax] at hb'
  | footnoteDef l t => simp [usesExtSyntax] at hb'
  | tocToken => simp [usesExtSyntax] at hb'

/-- Witness for C8 at a concrete plain document. -/
theorem ext_noop_without_syntax_witness :
    (∀ b ∈ demoPlainDoc, usesExtSyntax b = false)
    ∧ renderDoc stUninit demoPlainDoc = renderDocBase demoPlainDoc :=
  ⟨by decide, ext_noop_without_syntax stUninit demoPlainDoc (by decide)⟩

/-- C4: rendering is a function of (pipeline state, input): rendering the
same document again, with the state that a first render call hands back,
yields byte-identical output. -/
theorem render_deterministic (st : PipelineState) (doc : Doc) :
    (renderSt st doc).1 = (renderSt (renderSt st doc).2 doc).1 := rfl

/-- C9: a render call returns the output string and leaves the pipeline
state (theme, language set, registered extensions, constructed highlighter)
unchanged; its output component is exactly the pure render function of the
state and the document, with no other effect represented. -/
theorem render_preserves_state (st : PipelineState) (doc : Doc) :
    (renderSt st doc).2 = st ∧ (renderSt st doc).1 = renderDoc st doc :=
  ⟨rfl, rfl⟩

/-- C2 counterexample: a render call issued before initialization (no
highlight function installed yet) neither blocks nor fails with a
"not initialized" error: it succeeds, and its output is the base,
unhighlighted rendering of the fenced code block. -/
theorem render_before_init_succeeds_unhighlighted :
    renderCall stUninit demoFenceDoc = Except.ok (renderDocBase demoFenceDoc)
    ∧ renderDocBase demoFenceDoc
        = "<pre><code class=\"language-typescript\">let x = 1;</code></pre>\n" := by
  constructor
  · rfl
  · decide

/-- C2 (amended): in any pipeline state with no highlight function
installed (the state before the `eleventy.before` hook completes), every
render call succeeds, and every fenced code block renders exactly as the
base unhighlighted conversion. -/
theorem render_before_init_silently_plain (st : PipelineState)
    (h : st.highlightFn = none) (doc : Doc) :
    renderCall st doc = Except.ok (renderDoc st doc)
    ∧ ∀ l c, renderBlockExt st doc (.fence l c) = renderBlockBase (.fence l c) := by
  refine ⟨rfl, ?_⟩
  intro l c
  simp only [renderBlockExt, renderBlockBase, h]

/-- Witness for the amended C2 at the uninitialized state. -/
theorem render_before_init_silently_plain_witness :
    stUninit.highlightFn = none
    ∧ renderCall stUninit demoFenceDoc = Except.ok (renderDoc stUninit demoFenceDoc) :=
  ⟨rfl, (render_before_init_silently_plain stUninit rfl demoFenceDoc).1⟩

/-- Shared helper: binding a successful `Except` value applies the
continuation. -/
theorem bind_ok_eq {α β ε : Type} (a : α) (f : α → Except ε β) :
    (Except.ok a >>= f) = f a := rfl

/-- Shared helper: binding a failed `Except` value propagates the error. -/
theorem bind_error_eq {α β ε : Type} (e : ε) (f : α → Except ε β) :
    ((Except.error e : Except ε α) >>= f) = Except.error e := rfl

/-- C6: for any parsed grammar data, the configured language set contains
the custom typespec grammar (a non-built-in entry) alongside the built-in
typescript and yaml languages, and the highlighter construction request
passes exactly this language set; moreover when the grammar load succeeds
the initialization phase calls `getHighlighter` on exactly that request. -/
theorem langs_has_custom_grammar (g : String) :
    (highlighterConfig g).langs = langsList g
    ∧ (∃ l ∈ langsList g, l.isCustom = true)
    ∧ LangSpec.builtin "typescript" ∈ langsList g
    ∧ LangSpec.builtin "yaml" ∈ langsList g
    ∧ (∀ (raw : String) (jsonParse : String → Except String String)
        (getHighlighter : HighlighterConfig → Except String Highlighter),
        jsonParse raw = Except.ok g →
        init (Except.ok raw) jsonParse getHighlighter
          = getHighlighter (highlighterConfig g)) := by
  refine ⟨rfl, ⟨.custom g, by simp [langsList], rfl⟩, by simp [langsList],
    by simp [langsList], ?_⟩
  intro raw jsonParse getHighlighter hparse
  simp [init, loadGrammar, hparse, bind_ok_eq]

/-- Witness for C6 with a concrete grammar, parser and constructor. -/
theorem langs_has_custom_grammar_witness :
    (fun _ : String => Except.ok "tsp-grammar" : String → Except String String) "raw"
        = Except.ok "tsp-grammar"
    ∧ init (Except.ok "raw") (fun _ => Except.ok "tsp-grammar")
        (fun c => Except.ok ⟨c, fun code _ _ => code⟩)
        = (fun c => Except.ok ⟨c, fun code _ _ => code⟩) (highlighterConfig "tsp-grammar") :=
  ⟨rfl, (langs_has_custom_grammar "tsp-grammar").2.2.2.2 "raw"
    (fun _ => Except.ok "tsp-grammar")
    (fun c => Except.ok ⟨c, fun code _ _ => code⟩) rfl⟩

/-- C7: every failure of the initialization phase is surfaced by the phase
itself: a failed grammar file read, a failed JSON parse, or a failed
highlighter construction each make `init` return that error, and a failed
initialization never yields a highlighter for render calls to use. -/
theorem init_failure_propagates (e : String) (readTypespec : Except String String)
    (jsonParse : String → Except String String)
    (getHighlighter : HighlighterConfig → Except String Highlighter) :
    (readTypespec = Except.error e →
      init readTypespec jsonParse getHighlighter = Except.error e)
    ∧ (∀ raw, readTypespec = Except.ok raw → jsonParse raw = Except.error e →
        init readTypespec jsonParse getHighlighter = Except.error e)
    ∧ (∀ raw g, readTypespec = Except.ok raw → jsonParse raw = Except.ok g →
        getHighlighter (highlighterConfig g) = Except.error e →
        init readTypespec jsonParse getHighlighter = Except.error e)
    ∧ (init readTypespec jsonParse getHighlighter = Except.error e →
        ∀ hl, init readTypespec jsonParse getHighlighter ≠ Except.ok hl) := by
  refine ⟨?_, ?_, ?_, ?_⟩
  · intro h
    simp [init, loadGrammar, h, bind_error_eq]
  · intro raw hr hp
    simp [init, loadGrammar, hr, hp, bind_ok_eq, bind_error_eq]
  · intro raw g hr hp hg
    simp [init, loadGrammar, hr, hp, hg, bind_ok_eq]
  · intro herr hl hok
    rw [herr] at hok
    exact Except.noConfusion hok

/-- Witness for C7: a concrete failing grammar read halts initialization. -/
theorem init_failure_propagates_witness :
    (Except.error "ENOENT: typespec.json" : Except String String)
        = Except.error "ENOENT: typespec.json"
    ∧ init (Except.error "ENOENT: typespec.json")
        (fun raw => Except.ok raw)
        (fun c => Except.ok ⟨c, fun code _ _ => code⟩)
        = Except.error "ENOENT: typespec.json" :=
  ⟨rfl, (init_failure_propagates "ENOENT: typespec.json"
    (Except.error "ENOENT: typespec.json") (fun raw => Except.ok raw)
    (fun c => Except.ok ⟨c, fun code _ _ => code⟩)).1 rfl⟩

/-- C10: the installed highlight function always hands the highlighter the
trimmed code string, and on a code string with a trailing newline the
highlighter receives the string without that newline, not the source text
verbatim. -/
theorem highlight_trims_code (hl : Highlighter) (code lang : String) :
    highlight hl code lang = hl.codeToHtml (strTrim code) lang theme
    ∧ highlight hl "let x = 1;\n" lang = hl.codeToHtml "let x = 1;" lang theme := by
  refine ⟨rfl, ?_⟩
  have h : strTrim "let x = 1;\n" = "let x = 1;" := by decide
  rw [highlight, h]

end Blog
